import Mathlib

/-!
Verification development for the TRACE-X recorder (src/record/src/record.py).

The Python module has two pipelines:

* read_serial: a byte-at-a-time stream framer over a serial source.  Each
  loop iteration reads zero or one byte, maintains a two-byte sliding
  window (previous_data + data), a pending buffer (queue), a binary-frame
  flag (ubx_flag) and three optional start timestamps, and calls
  save_message when a boundary window is recognized.  On loop exit, the
  finally block writes the accumulated messages to a file.
* read_CAN_bus: a frame-at-a-time loop that filters frames by a set of
  known identifiers, decodes them through an external database, and on
  exit writes the accumulated records when at least one exists.

The embedding below translates that code directly.  Bytes are natural
numbers (every real byte is below 256; none of the framing logic needs
the bound).  Wall-clock instants are abstracted to one integer per loop
iteration (the code calls time.time several times per iteration; the
claims depend only on which timestamps are None, never on clock values).
Python exceptions are explicit outcomes.  The step function additionally
reports, as pure observations, the list of save_message calls it makes
(em) and the raw bytes it irrecoverably drops (lost); the state
transition itself is a line-by-line translation of the loop body.
-/

/-- Number of consecutive empty serial reads tolerated before the stall
break (NULL_CNT in record.py). -/
def NULL_CNT : Nat := 500000

/-- The message_type strings used by read_serial: NMEA text frames, UBX
binary frames, and unclassified runs (the Unknown tag). -/
inductive MType where
  | NMEA
  | UBX
  | Unknown
deriving DecidableEq, Repr

/-- The data field a record stores: res.hex() keeps the raw bytes in hex
form, res.decode() keeps them as a UTF-8 string.  Both renderings are
lossless, so the model carries the underlying bytes with a tag. -/
inductive RecData where
  | hexStr (bs : List Nat)
  | utf8Str (bs : List Nat)
deriving DecidableEq, Repr

/-- One record appended to the messages deque by save_message. -/
structure LogRec where
  timestamp : Int
  type : MType
  data : RecData
deriving DecidableEq, Repr

/-- Continuation-byte test for UTF-8 (0x80..0xBF). -/
def utf8Cont (c : Nat) : Bool := 0x80 ≤ c && c ≤ 0xBF

/-- Validity of a byte list under the strict UTF-8 decoder, modelling the
success condition of Python bytes.decode(): no overlong forms, no
surrogates, nothing above U+10FFFF, complete sequences only. -/
def utf8Valid : List Nat → Bool
  | [] => true
  | b :: rest =>
    if b ≤ 0x7F then utf8Valid rest
    else if 0xC2 ≤ b && b ≤ 0xDF then
      match rest with
      | c1 :: rest2 => utf8Cont c1 && utf8Valid rest2
      | [] => false
    else if 0xE0 ≤ b && b ≤ 0xEF then
      match rest with
      | c1 :: c2 :: rest3 =>
        (if b = 0xE0 then 0xA0 ≤ c1 && c1 ≤ 0xBF
         else if b = 0xED then 0x80 ≤ c1 && c1 ≤ 0x9F
         else utf8Cont c1) && utf8Cont c2 && utf8Valid rest3
      | _ => false
    else if 0xF0 ≤ b && b ≤ 0xF4 then
      match rest with
      | c1 :: c2 :: c3 :: rest4 =>
        (if b = 0xF0 then 0x90 ≤ c1 && c1 ≤ 0xBF
         else if b = 0xF4 then 0x80 ≤ c1 && c1 ≤ 0x8F
         else utf8Cont c1) && utf8Cont c2 && utf8Cont c3 && utf8Valid rest4
      | _ => false
    else false

/-- save_message from record.py.  The try block builds the record (hex
for UBX and Unknown, UTF-8 decode for NMEA) and appends it; the finally
block appends it again, so a successfully built record enters the list
twice.  When the decode raises, the except block rebuilds the record as
Unknown with the hex rendering and only the finally append runs. -/
def save_message (messages : List LogRec) (res : List Nat) (timestamp : Int)
    (message_type : MType) : List LogRec :=
  match message_type with
  | .UBX => messages ++ [⟨timestamp, .UBX, .hexStr res⟩, ⟨timestamp, .UBX, .hexStr res⟩]
  | .Unknown => messages ++ [⟨timestamp, .Unknown, .hexStr res⟩, ⟨timestamp, .Unknown, .hexStr res⟩]
  | .NMEA =>
    if utf8Valid res then
      messages ++ [⟨timestamp, .NMEA, .utf8Str res⟩, ⟨timestamp, .NMEA, .utf8Str res⟩]
    else
      messages ++ [⟨timestamp, .Unknown, .hexStr res⟩]

/-- write_to_file serializes the message list and writes it; the model
exposes the written content, which is exactly the list. -/
def write_to_file (messages : List LogRec) : List LogRec := messages

/-- A save_message call site: the res bytes, the timestamp argument and
the message_type. -/
abbrev Emis := List Nat × Int × MType

/-- The local state of the read_serial loop. -/
structure SerState where
  messages : List LogRec
  queue : List Nat
  ubx_flag : Bool
  ubx_timestamp : Option Int
  nmea_timestamp : Option Int
  unknown_timestamp : Option Int
  previous_data : List Nat
  null_cnt : Nat
deriving DecidableEq, Repr

/-- The state read_serial initializes before its loop. -/
def initState : SerState :=
  { messages := [], queue := [], ubx_flag := false, ubx_timestamp := none,
    nmea_timestamp := none, unknown_timestamp := none, previous_data := [], null_cnt := 0 }

/-- Outcome of one iteration of the read_serial while loop: continue to
the next iteration, break out via the stall check, or raise an exception
(None minus float) into the except handler.  next carries the
save_message calls made (em) and the raw bytes dropped forever (lost). -/
inductive StepOut where
  | next (s : SerState) (em : List Emis) (lost : List Nat)
  | stall (s : SerState)
  | exc (s : SerState)
deriving DecidableEq, Repr

/-- The loop state carried by a step outcome. -/
def StepOut.state : StepOut → SerState
  | .next s _ _ => s
  | .stall s => s
  | .exc s => s

/-- Whether the outcome is the stall break. -/
def StepOut.isStall : StepOut → Bool
  | .stall _ => true
  | _ => false

/-- One iteration of the read_serial loop body (record.py lines 152-200).
flat is flat_time, now the wall-clock instant of this iteration, rd the
result of ser.read(size=1) (none for an empty read).  Timestamp
subtractions on a None timestamp raise, reproducing the unguarded
`ts - flat_time` expressions; everything else is a direct transcription
of the branch structure. -/
def stepIter (flat now : Int) (s : SerState) (rd : Option Nat) : StepOut :=
  let data := rd.toList
  let nc := if data.isEmpty then s.null_cnt + 1 else 0
  if NULL_CNT < nc then
    .stall { s with null_cnt := nc }
  else if s.queue.length < 1 then
    .next { s with previous_data := data, queue := s.queue ++ data, null_cnt := nc } [] []
  else
    let lastTwo := s.previous_data ++ data
    if lastTwo = [0x24, 0x47] then
      -- a NMEA message is starting
      if s.ubx_flag then
        match s.ubx_timestamp with
        | none => .exc { s with null_cnt := nc }
        | some t =>
          .next { s with
              messages := save_message s.messages s.queue.dropLast (t - flat) .UBX,
              nmea_timestamp := some now, queue := lastTwo, ubx_flag := false,
              previous_data := data, null_cnt := nc }
            [(s.queue.dropLast, t - flat, .UBX)] []
      else if 0 < s.queue.length - 1 then
        match s.unknown_timestamp with
        | none => .exc { s with null_cnt := nc }
        | some t =>
          .next { s with
              messages := save_message s.messages s.queue.dropLast (t - flat) .Unknown,
              nmea_timestamp := some now, queue := lastTwo, ubx_flag := false,
              previous_data := data, null_cnt := nc }
            [(s.queue.dropLast, t - flat, .Unknown)] []
      else
        .next { s with
            nmea_timestamp := some now, queue := lastTwo, ubx_flag := false,
            previous_data := data, null_cnt := nc } [] []
    else if lastTwo = [0x0D, 0x0A] then
      -- one message is ending
      if s.ubx_flag = false then
        match s.nmea_timestamp with
        | none => .exc { s with null_cnt := nc }
        | some t =>
          .next { s with
              messages := save_message s.messages (s.queue ++ [0x0A]) (t - flat) .NMEA,
              queue := [], unknown_timestamp := some now,
              previous_data := data, null_cnt := nc }
            [(s.queue ++ [0x0A], t - flat, .NMEA)] []
      else
        match s.ubx_timestamp with
        | none => .exc { s with null_cnt := nc }
        | some t =>
          .next { s with
              messages := save_message s.messages s.queue.dropLast (t - flat) .UBX,
              ubx_flag := false, queue := [], unknown_timestamp := some now,
              previous_data := data, null_cnt := nc }
            [(s.queue.dropLast, t - flat, .UBX)] [0x0D, 0x0A]
    else if lastTwo = [0xB5, 0x62] then
      -- a UBX message is starting
      if s.ubx_flag then
        match s.ubx_timestamp with
        | none => .exc { s with null_cnt := nc }
        | some t =>
          .next { s with
              messages := save_message s.messages s.queue.dropLast (t - flat) .UBX,
              ubx_flag := true, ubx_timestamp := some now, queue := lastTwo,
              previous_data := data, null_cnt := nc }
            [(s.queue.dropLast, t - flat, .UBX)] []
      else if 0 < s.queue.length - 1 then
        match s.unknown_timestamp with
        | none => .exc { s with null_cnt := nc }
        | some t =>
          .next { s with
              messages := save_message s.messages s.queue.dropLast (t - flat) .Unknown,
              ubx_flag := true, ubx_timestamp := some now, queue := lastTwo,
              previous_data := data, null_cnt := nc }
            [(s.queue.dropLast, t - flat, .Unknown)] []
      else
        .next { s with
            ubx_flag := true, ubx_timestamp := some now, queue := lastTwo,
            previous_data := data, null_cnt := nc } [] []
    else
      .next { s with queue := s.queue ++ data, previous_data := data, null_cnt := nc } [] []

/-- How a run of the read_serial loop ended: input exhausted (the
deadline or cancellation check fires between iterations), the stall
break, or an exception caught by the except handler. -/
inductive StopKind where
  | finished
  | stalled
  | raised
deriving DecidableEq, Repr

/-- Observable result of a read_serial run: how it stopped, the final
loop state, the save_message calls in order, and the raw bytes dropped. -/
structure RunOut where
  stop : StopKind
  state : SerState
  ems : List Emis
  lost : List Nat
deriving DecidableEq, Repr

/-- Run the read_serial loop over a list of reads, one clock tick per
iteration.  Cancellation and the deadline are modelled as exhaustion of
the read list (the code checks them once per processed unit). -/
def runAux (flat : Int) : Int → SerState → List (Option Nat) → RunOut
  | _, s, [] => ⟨.finished, s, [], []⟩
  | clk, s, rd :: rest =>
    match stepIter flat clk s rd with
    | .next s' em l =>
      let o := runAux flat (clk + 1) s' rest
      ⟨o.stop, o.state, em ++ o.ems, l ++ o.lost⟩
    | .stall s' => ⟨.stalled, s', [], []⟩
    | .exc s' => ⟨.raised, s', [], []⟩

/-- read_serial from record.py: initialize the loop state, run the loop. -/
def read_serial (flat : Int) (reads : List (Option Nat)) : RunOut :=
  runAux flat flat initState reads

/-- The content the finally block of read_serial hands to write_to_file:
always the full messages list, whatever way the loop ended. -/
def read_serial_written (flat : Int) (reads : List (Option Nat)) : List LogRec :=
  write_to_file (read_serial flat reads).state.messages

/-- The bytes actually delivered by a list of reads (empty reads deliver
nothing). -/
def inputBytes (reads : List (Option Nat)) : List Nat := reads.filterMap id

/-- Concatenation of the payloads of a list of save_message calls. -/
def emsConcat : List Emis → List Nat
  | [] => []
  | e :: r => e.1 ++ emsConcat r

/-- Replay a list of save_message calls against a record list. -/
def flushEms (messages : List LogRec) (ems : List Emis) : List LogRec :=
  ems.foldl (fun ms e => save_message ms e.1 e.2.1 e.2.2) messages

/-- Whether two adjacent bytes form one of the three boundary windows of
the framer: 24 47 (dollar G), 0D 0A (CR LF), B5 62 (UBX sync). -/
def isBoundaryPair (a b : Nat) : Bool :=
  (a == 0x24 && b == 0x47) || (a == 0x0D && b == 0x0A) || (a == 0xB5 && b == 0x62)

/-- A raw CAN frame as delivered by can_bus.recv. -/
structure CanFrame where
  arbitration_id : Nat
  data : List Nat
  timestamp : Int
deriving DecidableEq, Repr

/-- A record appended to can_messages; the decoded signal map produced by
the external cantools database is abstract (type parameter). -/
structure CanRec (α : Type) where
  timestamp : Int
  arbitration_id : Nat
  data : α

/-- Truthiness of a received frame object in the `if message:` test: a
python-can Message defines neither a bool nor a len hook, so a non-None
frame is always truthy. -/
def canTruthy (_ : CanFrame) : Bool := true

/-- How the read_CAN_bus loop ended: input exhausted (deadline or
cancellation), the break on a falsy frame (the expired-waiting-time
branch), or an exception caught by the handler. -/
inductive CanStop where
  | finished
  | expired
  | raised
deriving DecidableEq, Repr

/-- Observable result of a read_CAN_bus run. -/
structure CanOut (α : Type) where
  stop : CanStop
  messages : List (CanRec α)

/-- The read_CAN_bus loop (record.py lines 97-116).  ids is the
message_ids list built from the database at startup; decode abstracts
db_can.decode_message plus the NamedSignalValue projection (an external
collaborator, modelled total).  A recv timeout returns none, and the
attribute access message.arbitration_id on None raises before the
truthiness test is reached. -/
def runCanAux {α : Type} (ids : List Nat) (decode : Nat → List Nat → α) :
    List (CanRec α) → List (Option CanFrame) → CanOut α
  | ms, [] => ⟨.finished, ms⟩
  | ms, none :: _ => ⟨.raised, ms⟩
  | ms, some m :: rest =>
    if m.arbitration_id ∈ ids then
      if canTruthy m then
        runCanAux ids decode
          (ms ++ [⟨m.timestamp, m.arbitration_id, decode m.arbitration_id m.data⟩]) rest
      else ⟨.expired, ms⟩
    else
      runCanAux ids decode ms rest

/-- The content the finally block of read_CAN_bus writes: the record
list when it is nonempty, nothing otherwise. -/
def read_CAN_bus_written {α : Type} (ids : List Nat) (decode : Nat → List Nat → α)
    (recvs : List (Option CanFrame)) : Option (List (CanRec α)) :=
  let o := runCanAux ids decode [] recvs
  if 0 < o.messages.length then some o.messages else none

/-- C2, failing run: feeding the single complete NMEA frame dollar-G-P-G-G-A
comma x CR LF produces a record list of length two (the same Text record
twice), because save_message appends the record in its try block and again
in its finally block; the claim and spec require exactly one record. -/
theorem c2_single_text_frame_recorded_twice :
    read_serial_written 0
        ([0x24, 0x47, 0x50, 0x47, 0x47, 0x41, 0x2C, 0x78, 0x0D, 0x0A].map some) =
      [⟨1, .NMEA, .utf8Str [0x24, 0x47, 0x50, 0x47, 0x47, 0x41, 0x2C, 0x78, 0x0D, 0x0A]⟩,
       ⟨1, .NMEA, .utf8Str [0x24, 0x47, 0x50, 0x47, 0x47, 0x41, 0x2C, 0x78, 0x0D, 0x0A]⟩] ∧
    (read_serial_written 0
        ([0x24, 0x47, 0x50, 0x47, 0x47, 0x41, 0x2C, 0x78, 0x0D, 0x0A].map some)).length ≠ 1 := by
  decide

/-- C1 counterexample: feeding the four bytes B5 62 0D 0A (a binary frame
terminated by the CR LF window), the run completes but the concatenation
of all emitted payloads plus the still-pending buffer is B5 62, not the
original four bytes: the CR and LF bytes belong to no emitted payload. -/
theorem c1_total_coverage_cex :
    (read_serial 0 ([0xB5, 0x62, 0x0D, 0x0A].map some)).stop = .finished ∧
    emsConcat (read_serial 0 ([0xB5, 0x62, 0x0D, 0x0A].map some)).ems ++
        (read_serial 0 ([0xB5, 0x62, 0x0D, 0x0A].map some)).state.queue = [0xB5, 0x62] ∧
    inputBytes ([0xB5, 0x62, 0x0D, 0x0A].map some) = [0xB5, 0x62, 0x0D, 0x0A] ∧
    emsConcat (read_serial 0 ([0xB5, 0x62, 0x0D, 0x0A].map some)).ems ++
        (read_serial 0 ([0xB5, 0x62, 0x0D, 0x0A].map some)).state.queue ≠
      inputBytes ([0xB5, 0x62, 0x0D, 0x0A].map some) := by
  decide

/-- C3 counterexample with N equal to 1: feeding sync, one byte 01, sync
yields a single Binary emission whose payload is B5 62 01 of length 3,
not the length-1 byte run strictly between the two sync occurrences. -/
theorem c3_binary_length_cex :
    (read_serial 0 ([0xB5, 0x62, 0x01, 0xB5, 0x62].map some)).ems =
      [([0xB5, 0x62, 0x01], 1, MType.UBX)] ∧
    ((read_serial 0 ([0xB5, 0x62, 0x01, 0xB5, 0x62].map some)).ems.map
        fun e => e.1.length) ≠ [1] := by
  decide

/-- C4 counterexample: a run cancelled after the two bytes 41 42, with a
pending accumulated buffer of nonzero length 2, writes the empty record
list: the pending bytes produce no terminal message. -/
theorem c4_no_terminal_flush_cex :
    (read_serial 0 [some 0x41, some 0x42]).stop = .finished ∧
    (read_serial 0 [some 0x41, some 0x42]).state.queue = [0x41, 0x42] ∧
    read_serial_written 0 [some 0x41, some 0x42] = [] := by
  decide

/-- C5: if the CR LF window is recognized while the binary-frame flag is
set, the step emits the pending buffer minus one byte (its final byte,
the CR of the window; the just-arrived LF was never appended) as a UBX
call to save_message, clears the binary flag, and empties the buffer. -/
theorem c5_crlf_inside_binary_frame (flat now t : Int) (s : SerState)
    (hubx : s.ubx_flag = true) (hq : s.queue ≠ [])
    (hprev : s.previous_data = [0x0D]) (hts : s.ubx_timestamp = some t) :
    stepIter flat now s (some 0x0A) =
      .next { s with
          messages := save_message s.messages s.queue.dropLast (t - flat) .UBX,
          ubx_flag := false, queue := [], unknown_timestamp := some now,
          previous_data := [0x0A], null_cnt := 0 }
        [(s.queue.dropLast, t - flat, .UBX)] [0x0D, 0x0A] := by
  have hlen : ¬ s.queue.length < 1 := by
    have h0 := List.length_pos.mpr hq
    omega
  simp [stepIter, hubx, hprev, hts, hlen, NULL_CNT]

/-- C5 witness: a concrete binary-frame state hitting the CR LF window. -/
theorem c5_crlf_inside_binary_frame_witness :
    stepIter 0 7 ⟨[], [0xB5, 0x62, 0x0D], true, some 5, none, none, [0x0D], 0⟩ (some 0x0A) =
      .next ⟨[⟨5, .UBX, .hexStr [0xB5, 0x62]⟩, ⟨5, .UBX, .hexStr [0xB5, 0x62]⟩], [], false,
             some 5, none, some 7, [0x0A], 0⟩
        [([0xB5, 0x62], 5, .UBX)] [0x0D, 0x0A] := by
  have h := c5_crlf_inside_binary_frame 0 7 5
    ⟨[], [0xB5, 0x62, 0x0D], true, some 5, none, none, [0x0D], 0⟩
    rfl (by decide) rfl rfl
  simpa using h

/-- C6: when a boundary window forces an emission whose start timestamp
was never recorded (two or more pending bytes at a dollar-G or sync
window with the unknown timestamp still None, or a CR LF window with the
NMEA timestamp still None), the step evaluates None minus flat_time,
raises, and the loop ends through the except handler with no emission;
the messages accumulated earlier stay in the state that the finally
block hands to write_to_file. -/
theorem c6_none_timestamp_raises (flat clk : Int) (s : SerState) (rd : Nat)
    (rest : List (Option Nat)) (hq : s.queue ≠ [])
    (h : (s.previous_data ++ [rd] = [0x24, 0x47] ∧ s.ubx_flag = false ∧
            2 ≤ s.queue.length ∧ s.unknown_timestamp = none) ∨
         (s.previous_data ++ [rd] = [0xB5, 0x62] ∧ s.ubx_flag = false ∧
            2 ≤ s.queue.length ∧ s.unknown_timestamp = none) ∨
         (s.previous_data ++ [rd] = [0x0D, 0x0A] ∧ s.ubx_flag = false ∧
            s.nmea_timestamp = none)) :
    runAux flat clk s (some rd :: rest) = ⟨.raised, { s with null_cnt := 0 }, [], []⟩ := by
  have hlen : ¬ s.queue.length < 1 := by
    have h0 := List.length_pos.mpr hq
    omega
  rcases h with ⟨hw, hf, hl, hu⟩ | ⟨hw, hf, hl, hu⟩ | ⟨hw, hf, hn⟩
  · have hl' : 0 < s.queue.length - 1 := by omega
    simp [runAux, stepIter, hw, hf, hu, hl', hlen, NULL_CNT]
  · have hl' : 0 < s.queue.length - 1 := by omega
    have h1 : s.previous_data ++ [rd] ≠ [0x24, 0x47] := by
      rw [hw]; decide
    have h2 : s.previous_data ++ [rd] ≠ [0x0D, 0x0A] := by
      rw [hw]; decide
    simp [runAux, stepIter, hw, h1, h2, hf, hu, hl', hlen, NULL_CNT]
  · have h1 : s.previous_data ++ [rd] ≠ [0x24, 0x47] := by
      rw [hw]; decide
    simp [runAux, stepIter, hw, h1, hf, hn, hlen, NULL_CNT]

/-- C6 witness: after a recorded UBX frame, a second dollar-G window with
two unclassified bytes pending and no CR LF seen yet raises, and the
earlier records remain for the file write. -/
theorem c6_none_timestamp_raises_witness :
    runAux 0 9 ⟨[⟨1, .UBX, .hexStr [0xB5, 0x62]⟩, ⟨1, .UBX, .hexStr [0xB5, 0x62]⟩],
        [0x41, 0x42, 0x24], false, none, none, none, [0x24], 0⟩ [some 0x47] =
      ⟨.raised, ⟨[⟨1, .UBX, .hexStr [0xB5, 0x62]⟩, ⟨1, .UBX, .hexStr [0xB5, 0x62]⟩],
        [0x41, 0x42, 0x24], false, none, none, none, [0x24], 0⟩, [], []⟩ := by
  have h := c6_none_timestamp_raises 0 9
    ⟨[⟨1, .UBX, .hexStr [0xB5, 0x62]⟩, ⟨1, .UBX, .hexStr [0xB5, 0x62]⟩],
      [0x41, 0x42, 0x24], false, none, none, none, [0x24], 0⟩
    0x47 [] (by decide) (Or.inl (by exact ⟨rfl, rfl, by decide, rfl⟩))
  simpa using h

/-- C7: a message tentatively typed NMEA whose payload is not valid
UTF-8 is recorded by save_message as exactly one record re-tagged
Unknown, with the payload bytes preserved in hex form; save_message
returns normally, so the fallback aborts nothing. -/
theorem c7_classification_fallback (messages : List LogRec) (res : List Nat) (ts : Int)
    (h : utf8Valid res = false) :
    save_message messages res ts .NMEA = messages ++ [⟨ts, .Unknown, .hexStr res⟩] ∧
    (save_message messages res ts .NMEA).length = messages.length + 1 := by
  unfold save_message
  rw [h]
  simp

/-- C7 witness: the single byte FF is invalid UTF-8 and is recorded once
as Unknown with its bytes preserved. -/
theorem c7_classification_fallback_witness :
    utf8Valid [0xFF] = false ∧
    save_message [] [0xFF] 0 .NMEA = [⟨0, .Unknown, .hexStr [0xFF]⟩] := by
  exact ⟨by decide, (c7_classification_fallback [] [0xFF] 0 (by decide)).1⟩

/-- An empty read below the stall threshold leaves the buffer alone,
clears previous_data and bumps the null counter. -/
lemma stepIter_none_next (flat now : Int) (s : SerState)
    (hprev : s.previous_data.length ≤ 1) (hnc : s.null_cnt + 1 ≤ NULL_CNT) :
    stepIter flat now s none =
      .next { s with
          previous_data := [], queue := s.queue ++ [],
          null_cnt := s.null_cnt + 1 } [] [] := by
  have hlt : ¬ NULL_CNT < s.null_cnt + 1 := by omega
  have h1 : s.previous_data ≠ [0x24, 0x47] := by
    intro hcontra
    apply_fun List.length at hcontra
    simp at hcontra
    omega
  have h2 : s.previous_data ≠ [0x0D, 0x0A] := by
    intro hcontra
    apply_fun List.length at hcontra
    simp at hcontra
    omega
  have h3 : s.previous_data ≠ [0xB5, 0x62] := by
    intro hcontra
    apply_fun List.length at hcontra
    simp at hcontra
    omega
  by_cases hql : s.queue.length < 1
  · simp [stepIter, hlt, hql]
  · simp [stepIter, hlt, hql, h1, h2, h3]

/-- An empty read that pushes the null counter past the threshold takes
the stall break. -/
lemma stepIter_none_stall (flat now : Int) (s : SerState)
    (hnc : NULL_CNT < s.null_cnt + 1) :
    stepIter flat now s none = .stall { s with null_cnt := s.null_cnt + 1 } := by
  simp [stepIter, hnc]

/-- A run of consecutive empty reads that keeps the counter at or below
the threshold ends without a stall. -/
lemma run_empty_reads_no_stall : ∀ (k : Nat) (flat clk : Int) (s : SerState),
    s.previous_data.length ≤ 1 → s.null_cnt + k ≤ NULL_CNT →
    (runAux flat clk s (List.replicate k none)).stop = .finished := by
  intro k
  induction k with
  | zero => intro flat clk s _ _; simp [runAux]
  | succ k ih =>
    intro flat clk s hprev hcnt
    rw [List.replicate_succ]
    have hstep := stepIter_none_next flat clk s hprev (by omega)
    simp only [runAux, hstep]
    exact ih flat (clk + 1) _ (by simp) (by simp; omega)

/-- A run of consecutive empty reads that carries the counter exactly one
past the threshold ends in the stall break. -/
lemma run_empty_reads_stall : ∀ (k : Nat) (flat clk : Int) (s : SerState),
    s.previous_data.length ≤ 1 → s.null_cnt ≤ NULL_CNT →
    s.null_cnt + k = NULL_CNT + 1 →
    (runAux flat clk s (List.replicate k none)).stop = .stalled := by
  intro k
  induction k with
  | zero => intro flat clk s _ hle heq; omega
  | succ k ih =>
    intro flat clk s hprev hle heq
    rw [List.replicate_succ]
    by_cases hcrit : NULL_CNT < s.null_cnt + 1
    · have hstep := stepIter_none_stall flat clk s hcrit
      simp [runAux, hstep]
    · have hstep := stepIter_none_next flat clk s hprev (by omega)
      simp only [runAux, hstep]
      exact ih flat (clk + 1) _ (by simp) (by simp; omega) (by simp; omega)

/-- A non-empty read resets the null counter and never stalls. -/
lemma stepIter_some_resets (flat now : Int) (s : SerState) (b : Nat) :
    (stepIter flat now s (some b)).state.null_cnt = 0 ∧
    (stepIter flat now s (some b)).isStall = false := by
  unfold stepIter
  simp only [Option.toList, List.isEmpty, Bool.false_eq_true, if_false]
  norm_num [NULL_CNT]
  repeat' split
  all_goals simp [StepOut.state, StepOut.isStall]

/-- C8: runs of consecutive empty reads up to the fixed threshold
NULL_CNT never end the serial loop with the stall break; a run one
longer than the threshold always does; and any non-empty read resets
the consecutive-empty counter to zero without stalling. -/
theorem c8_stall_threshold :
    (∀ (flat clk : Int) (s : SerState) (k : Nat), s.previous_data.length ≤ 1 →
        s.null_cnt + k ≤ NULL_CNT →
        (runAux flat clk s (List.replicate k none)).stop = .finished) ∧
    (∀ (flat clk : Int) (s : SerState) (k : Nat), s.previous_data.length ≤ 1 →
        s.null_cnt ≤ NULL_CNT → s.null_cnt + k = NULL_CNT + 1 →
        (runAux flat clk s (List.replicate k none)).stop = .stalled) ∧
    (∀ (flat clk : Int) (s : SerState) (b : Nat),
        (stepIter flat clk s (some b)).state.null_cnt = 0 ∧
        (stepIter flat clk s (some b)).isStall = false) :=
  ⟨fun flat clk s k hp hc => run_empty_reads_no_stall k flat clk s hp hc,
   fun flat clk s k hp hl he => run_empty_reads_stall k flat clk s hp hl he,
   fun flat clk s b => stepIter_some_resets flat clk s b⟩

/-- C8 witness: from the initial state, exactly NULL_CNT empty reads end
without a stall, NULL_CNT plus one empty reads end stalled, and a
non-empty read resets the counter. -/
theorem c8_stall_threshold_witness :
    (runAux 0 0 initState (List.replicate NULL_CNT none)).stop = .finished ∧
    (runAux 0 0 initState (List.replicate (NULL_CNT + 1) none)).stop = .stalled ∧
    (stepIter 0 0 initState (some 0x41)).state.null_cnt = 0 ∧
    (stepIter 0 0 initState (some 0x41)).isStall = false :=
  ⟨c8_stall_threshold.1 0 0 initState NULL_CNT (by decide) (by decide),
   c8_stall_threshold.2.1 0 0 initState (NULL_CNT + 1) (by decide) (by decide) (by decide),
   (c8_stall_threshold.2.2 0 0 initState 0x41).1,
   (c8_stall_threshold.2.2 0 0 initState 0x41).2⟩

/-- Frames with identifiers outside the known set never add records: the
record list of a CAN run only ever holds known identifiers, given that
its starting list does. -/
lemma runCanAux_known_ids {α : Type} (ids : List Nat) (decode : Nat → List Nat → α) :
    ∀ (recvs : List (Option CanFrame)) (ms : List (CanRec α)),
    (∀ r ∈ ms, r.arbitration_id ∈ ids) →
    ∀ r ∈ (runCanAux ids decode ms recvs).messages, r.arbitration_id ∈ ids := by
  intro recvs
  induction recvs with
  | nil => intro ms hms r hr; exact hms r hr
  | cons rcv rest ih =>
    intro ms hms r hr
    cases rcv with
    | none => exact hms r hr
    | some m =>
      by_cases hid : m.arbitration_id ∈ ids
      · have hms' : ∀ r ∈ ms ++ [⟨m.timestamp, m.arbitration_id, decode m.arbitration_id m.data⟩],
            CanRec.arbitration_id r ∈ ids := by
          intro r' hr'
          rcases List.mem_append.mp hr' with h | h
          · exact hms r' h
          · rcases List.mem_singleton.mp h with rfl
            exact hid
        refine ih _ hms' r ?_
        simpa [runCanAux, hid, canTruthy] using hr
      · refine ih ms hms r ?_
        simpa [runCanAux, hid] using hr

/-- C9: a record can reach the written CAN output only if its
arbitration identifier belongs to the identifier set obtained from the
decode database at startup; a frame with an unknown identifier is
skipped by the continue branch before any record is built, whatever its
payload. -/
theorem c9_unknown_identifier_filtered {α : Type} (ids : List Nat)
    (decode : Nat → List Nat → α) (recvs : List (Option CanFrame))
    (out : List (CanRec α)) (r : CanRec α)
    (hw : read_CAN_bus_written ids decode recvs = some out) (hr : r ∈ out) :
    r.arbitration_id ∈ ids := by
  unfold read_CAN_bus_written at hw
  dsimp only at hw
  split at hw
  · cases hw
    exact runCanAux_known_ids ids decode recvs [] (by simp) r hr
  · cases hw

/-- C9 witness: a known-identifier frame passes through and its record
carries an identifier from the known set. -/
theorem c9_unknown_identifier_filtered_witness :
    read_CAN_bus_written [1] (fun _ _ => (0 : Nat)) [some ⟨1, [5], 3⟩] = some [⟨3, 1, 0⟩] ∧
    (⟨3, 1, 0⟩ : CanRec Nat).arbitration_id ∈ [1] :=
  ⟨rfl, c9_unknown_identifier_filtered [1] (fun _ _ => (0 : Nat)) [some ⟨1, [5], 3⟩]
    [⟨3, 1, 0⟩] ⟨3, 1, 0⟩ rfl (by simp)⟩

/-- The CAN loop never reaches its expired-waiting-time break: a frame
object is always truthy, and a timed-out recv returns None, which raises
at the arbitration_id attribute access before the truthiness test. -/
lemma runCanAux_never_expired {α : Type} (ids : List Nat) (decode : Nat → List Nat → α) :
    ∀ (recvs : List (Option CanFrame)) (ms : List (CanRec α)),
    (runCanAux ids decode ms recvs).stop ≠ .expired := by
  intro recvs
  induction recvs with
  | nil => intro ms h; simp [runCanAux] at h
  | cons rcv rest ih =>
    intro ms h
    cases rcv with
    | none => simp [runCanAux] at h
    | some m =>
      by_cases hid : m.arbitration_id ∈ ids
      · exact ih _ (by simpa [runCanAux, hid, canTruthy] using h)
      · exact ih ms (by simpa [runCanAux, hid] using h)

/-- C10: a recv timeout (None frame) ends the CAN loop at once through
the exception path, keeping the records accumulated so far; the graceful
expired-waiting-time stop is unreachable; and the final write happens
exactly when at least one record exists. -/
theorem c10_can_timeout_raises {α : Type} (ids : List Nat) (decode : Nat → List Nat → α) :
    (∀ (ms : List (CanRec α)) (rest : List (Option CanFrame)),
        runCanAux ids decode ms (none :: rest) = ⟨.raised, ms⟩) ∧
    (∀ (ms : List (CanRec α)) (recvs : List (Option CanFrame)),
        (runCanAux ids decode ms recvs).stop ≠ .expired) ∧
    (∀ recvs : List (Option CanFrame),
        read_CAN_bus_written ids decode recvs = none ↔
          (runCanAux ids decode [] recvs).messages = []) := by
  refine ⟨fun ms rest => rfl, fun ms recvs => runCanAux_never_expired ids decode recvs ms,
    fun recvs => ?_⟩
  unfold read_CAN_bus_written
  dsimp only
  split <;> rename_i hlen
  · constructor
    · intro h; cases h
    · intro h; rw [h] at hlen; simp at hlen
  · constructor
    · intro _
      have := Nat.eq_zero_of_not_pos hlen
      exact List.length_eq_zero.mp this
    · intro _; rfl

/-- A step that continues has updated its record list exactly by its
save_message calls. -/
lemma stepIter_next_messages (flat now : Int) (s : SerState) (rd : Option Nat)
    (s' : SerState) (em : List Emis) (l : List Nat)
    (h : stepIter flat now s rd = .next s' em l) :
    s'.messages = flushEms s.messages em := by
  simp only [stepIter] at h
  repeat' split at h
  all_goals cases h
  all_goals simp [flushEms]

/-- The stall break does not touch the record list. -/
lemma stepIter_stall_messages (flat now : Int) (s : SerState) (rd : Option Nat)
    (s' : SerState) (h : stepIter flat now s rd = .stall s') :
    s'.messages = s.messages := by
  simp only [stepIter] at h
  repeat' split at h
  all_goals cases h
  all_goals simp

/-- A raising step aborts before any append, leaving the record list as
it was. -/
lemma stepIter_exc_messages (flat now : Int) (s : SerState) (rd : Option Nat)
    (s' : SerState) (h : stepIter flat now s rd = .exc s') :
    s'.messages = s.messages := by
  simp only [stepIter] at h
  repeat' split at h
  all_goals cases h
  all_goals simp

/-- Over a whole run, however it stops, the final record list is the
replay of all emissions against the starting list. -/
lemma runAux_messages (flat : Int) : ∀ (reads : List (Option Nat)) (clk : Int) (s : SerState),
    (runAux flat clk s reads).state.messages =
      flushEms s.messages (runAux flat clk s reads).ems := by
  intro reads
  induction reads with
  | nil => intro clk s; simp [runAux, flushEms]
  | cons rd rest ih =>
    intro clk s
    cases hstep : stepIter flat clk s rd with
    | next s' em l =>
      simp only [runAux, hstep]
      rw [ih (clk + 1) s', stepIter_next_messages flat clk s rd s' em l hstep]
      simp [flushEms, List.foldl_append]
    | stall s' =>
      simp only [runAux, hstep]
      rw [stepIter_stall_messages flat clk s rd s' hstep]
      simp [flushEms]
    | exc s' =>
      simp only [runAux, hstep]
      rw [stepIter_exc_messages flat clk s rd s' hstep]
      simp [flushEms]

/-- C4 amended behaviour: whatever way the loop stops (input cut off by
cancellation or deadline, stall break, or caught exception), the list
handed to write_to_file is exactly the replay of the boundary-emission
save_message calls: every record already emitted is written, and the
pending buffer contributes no terminal message. -/
theorem c4_written_equals_emissions (flat : Int) (reads : List (Option Nat)) :
    read_serial_written flat reads = flushEms [] (read_serial flat reads).ems := by
  unfold read_serial_written write_to_file read_serial
  have h := runAux_messages flat reads flat initState
  simpa [initState] using h

/-- Auxiliary: a read delivers at most one byte. -/
lemma toList_length_le_one (rd : Option Nat) : rd.toList.length ≤ 1 := by
  cases rd <;> simp

/-- With no previous byte in the window, a read byte can only be
appended: no two-byte boundary can match. -/
lemma stepIter_some_prevnil (flat now : Int) (s : SerState) (b : Nat)
    (hpd : s.previous_data = []) :
    stepIter flat now s (some b) =
      .next { s with previous_data := [b], queue := s.queue ++ [b], null_cnt := 0 } [] [] := by
  by_cases hql : s.queue.length < 1
  · simp [stepIter, hql]
  · simp [stepIter, hql, hpd]

/-- One continuing step preserves the coverage bookkeeping: the emitted
payloads, the new pending buffer and the dropped bytes together account
exactly for the old pending buffer plus the byte read, and the sliding
window invariant survives. -/
lemma stepIter_next_cov (flat now : Int) (s : SerState) (rd : Option Nat)
    (s' : SerState) (em : List Emis) (l : List Nat)
    (hp1 : s.previous_data.length ≤ 1)
    (hp2 : s.queue ≠ [] → s.previous_data = [] ∨ s.queue = s.queue.dropLast ++ s.previous_data)
    (h : stepIter flat now s rd = .next s' em l) :
    (emsConcat em ++ s'.queue ++ l = s.queue ++ rd.toList) ∧
    s'.previous_data.length ≤ 1 ∧
    (s'.queue ≠ [] → s'.previous_data = [] ∨
      s'.queue = s'.queue.dropLast ++ s'.previous_data) := by
  cases rd with
  | none =>
    by_cases hcrit : NULL_CNT < s.null_cnt + 1
    · rw [stepIter_none_stall flat now s hcrit] at h
      cases h
    · rw [stepIter_none_next flat now s hp1 (by omega)] at h
      cases h
      refine ⟨by simp [emsConcat], by simp, fun _ => Or.inl rfl⟩
  | some b =>
    have hprev : s.previous_data = [] ∨ ∃ p, s.previous_data = [p] := by
      cases hpd : s.previous_data with
      | nil => exact Or.inl rfl
      | cons p tl =>
        cases tl with
        | nil => exact Or.inr ⟨p, rfl⟩
        | cons q tl2 => rw [hpd] at hp1; simp at hpd hp1
    rcases hprev with hpd | ⟨p, hpd⟩
    · rw [stepIter_some_prevnil flat now s b hpd] at h
      cases h
      refine ⟨by simp [emsConcat], by simp, ?_⟩
      intro _
      right
      simp
    · simp only [stepIter, hpd, Option.toList, List.isEmpty, List.singleton_append,
        Nat.not_lt_zero, if_false] at h
      by_cases hql : s.queue.length < 1
      · have hq0 : s.queue = [] := List.eq_nil_of_length_eq_zero (by omega)
        rw [if_pos hql] at h
        cases h
        refine ⟨by simp [emsConcat, hq0], by simp, ?_⟩
        intro _
        right
        rw [hq0]
        simp
      · rw [if_neg hql] at h
        have hqne : s.queue ≠ [] := by
          intro hc
          rw [hc] at hql
          simp at hql
        have hq : s.queue = s.queue.dropLast ++ [p] := by
          rcases hp2 hqne with h0 | h0
          · rw [hpd] at h0; cases h0
          · rw [hpd] at h0; exact h0
        obtain ⟨q0, hq0⟩ : ∃ q0, s.queue = q0 ++ [p] := ⟨s.queue.dropLast, hq⟩
        clear hq hp2 hp1 hqne hql
        repeat' split at h
        all_goals cases h
        all_goals simp_all [emsConcat, List.dropLast_concat]

/-- Payload concatenation distributes over appended emission lists. -/
lemma emsConcat_append (a b : List Emis) :
    emsConcat (a ++ b) = emsConcat a ++ emsConcat b := by
  induction a with
  | nil => simp [emsConcat]
  | cons e r ih => simp [emsConcat, ih]

/-- Delivered bytes of a read list, unfolded one read at a time. -/
lemma inputBytes_cons (rd : Option Nat) (rest : List (Option Nat)) :
    inputBytes (rd :: rest) = rd.toList ++ inputBytes rest := by
  cases rd <;> simp [inputBytes]

/-- Run-level coverage: along a run that ends normally and never takes
the lossy binary CR LF branch, emissions plus the final pending buffer
account exactly for the starting buffer plus all delivered bytes. -/
lemma runAux_coverage (flat : Int) : ∀ (reads : List (Option Nat)) (clk : Int) (s : SerState),
    s.previous_data.length ≤ 1 →
    (s.queue ≠ [] → s.previous_data = [] ∨ s.queue = s.queue.dropLast ++ s.previous_data) →
    (runAux flat clk s reads).stop = .finished →
    (runAux flat clk s reads).lost = [] →
    emsConcat (runAux flat clk s reads).ems ++ (runAux flat clk s reads).state.queue =
      s.queue ++ inputBytes reads := by
  intro reads
  induction reads with
  | nil => intro clk s _ _ _ _; simp [runAux, emsConcat, inputBytes]
  | cons rd rest ih =>
    intro clk s hp1 hp2 hstop hlost
    cases hstep : stepIter flat clk s rd with
    | next s' em l =>
      simp only [runAux, hstep] at hstop hlost ⊢
      have hl : l = [] ∧ (runAux flat (clk + 1) s' rest).lost = [] := by
        simpa using List.append_eq_nil.mp hlost
      obtain ⟨hcov, hq1, hq2⟩ := stepIter_next_cov flat clk s rd s' em l hp1 hp2 hstep
      rw [hl.1, List.append_nil] at hcov
      have hrest := ih (clk + 1) s' hq1 hq2 hstop hl.2
      rw [emsConcat_append, inputBytes_cons]
      calc emsConcat em ++ emsConcat (runAux flat (clk + 1) s' rest).ems ++
            (runAux flat (clk + 1) s' rest).state.queue
          = emsConcat em ++ (emsConcat (runAux flat (clk + 1) s' rest).ems ++
            (runAux flat (clk + 1) s' rest).state.queue) := by
            rw [List.append_assoc]
        _ = emsConcat em ++ (s'.queue ++ inputBytes rest) := by rw [hrest]
        _ = (emsConcat em ++ s'.queue) ++ inputBytes rest := by rw [List.append_assoc]
        _ = (s.queue ++ rd.toList) ++ inputBytes rest := by rw [hcov]
        _ = s.queue ++ (rd.toList ++ inputBytes rest) := by rw [List.append_assoc]
    | stall s' =>
      simp only [runAux, hstep] at hstop
      cases hstop
    | exc s' =>
      simp only [runAux, hstep] at hstop
      cases hstop

/-- C1 amended behaviour: for every run of read_serial that ends
normally and never recognizes a CR LF window inside a binary frame (the
lost ledger is empty), the concatenation of all emitted payloads, in
emission order, followed by the bytes still pending in the buffer,
equals the delivered byte sequence exactly. -/
theorem c1_total_coverage_amended (flat : Int) (reads : List (Option Nat))
    (hstop : (read_serial flat reads).stop = .finished)
    (hlost : (read_serial flat reads).lost = []) :
    emsConcat (read_serial flat reads).ems ++ (read_serial flat reads).state.queue =
      inputBytes reads := by
  have h := runAux_coverage flat reads flat initState (by simp [initState])
    (by intro hc; simp [initState] at hc) hstop hlost
  simpa [initState, read_serial] using h

/-- C1 amended witness: a complete NMEA frame run satisfies the
coverage equation. -/
theorem c1_total_coverage_amended_witness :
    (read_serial 0 ([0x24, 0x47, 0x58, 0x0D, 0x0A].map some)).stop = .finished ∧
    (read_serial 0 ([0x24, 0x47, 0x58, 0x0D, 0x0A].map some)).lost = [] ∧
    emsConcat (read_serial 0 ([0x24, 0x47, 0x58, 0x0D, 0x0A].map some)).ems ++
        (read_serial 0 ([0x24, 0x47, 0x58, 0x0D, 0x0A].map some)).state.queue =
      inputBytes ([0x24, 0x47, 0x58, 0x0D, 0x0A].map some) :=
  ⟨by decide, by decide,
   c1_total_coverage_amended 0 ([0x24, 0x47, 0x58, 0x0D, 0x0A].map some)
     (by decide) (by decide)⟩

/-- A byte that completes no boundary window is simply appended to the
pending buffer. -/
lemma stepIter_else_byte (flat now : Int) (s : SerState) (p b : Nat)
    (hpd : s.previous_data = [p]) (hq : s.queue ≠ [])
    (hbp : isBoundaryPair p b = false) :
    stepIter flat now s (some b) =
      .next { s with queue := s.queue ++ [b], previous_data := [b], null_cnt := 0 } [] [] := by
  have hql : ¬ s.queue.length < 1 := by
    have h0 := List.length_pos.mpr hq
    omega
  have h1 : ¬ (([p, b] : List Nat) = [0x24, 0x47]) := by
    intro hc
    simp at hc
    rcases hc with ⟨rfl, rfl⟩
    simp [isBoundaryPair] at hbp
  have h2 : ¬ (([p, b] : List Nat) = [0x0D, 0x0A]) := by
    intro hc
    simp at hc
    rcases hc with ⟨rfl, rfl⟩
    simp [isBoundaryPair] at hbp
  have h3 : ¬ (([p, b] : List Nat) = [0xB5, 0x62]) := by
    intro hc
    simp at hc
    rcases hc with ⟨rfl, rfl⟩
    simp [isBoundaryPair] at hbp
  simp [stepIter, hpd, hql, h1, h2, h3]

/-- Closing a still-open binary frame at a fresh sync window: the
pending buffer minus its final byte goes out as UBX and the buffer
restarts at the new sync pattern. -/
lemma stepIter_sync_close (flat now t : Int) (s : SerState)
    (hubx : s.ubx_flag = true) (hq : s.queue ≠ [])
    (hprev : s.previous_data = [0xB5]) (hts : s.ubx_timestamp = some t) :
    stepIter flat now s (some 0x62) =
      .next { s with
          messages := save_message s.messages s.queue.dropLast (t - flat) .UBX,
          ubx_flag := true, ubx_timestamp := some now, queue := [0xB5, 0x62],
          previous_data := [0x62], null_cnt := 0 }
        [(s.queue.dropLast, t - flat, .UBX)] [] := by
  have hql : ¬ s.queue.length < 1 := by
    have h0 := List.length_pos.mpr hq
    omega
  simp [stepIter, hubx, hprev, hts, hql]

/-- Running a list of non-boundary bytes from a nonempty buffer only
appends them, advancing the clock one tick per byte. -/
lemma runAux_else_chain (flat : Int) : ∀ (mid : List Nat) (clk : Int) (s : SerState) (p : Nat)
    (rest : List (Option Nat)),
    s.previous_data = [p] → s.queue ≠ [] →
    List.Chain' (fun a b => isBoundaryPair a b = false) (p :: mid) →
    runAux flat clk s (mid.map some ++ rest) =
      runAux flat (clk + mid.length) { s with
        queue := s.queue ++ mid,
        previous_data := [mid.getLastD p],
        null_cnt := if mid.isEmpty then s.null_cnt else 0 } rest := by
  intro mid
  induction mid with
  | nil =>
    intro clk s p rest hpd hq hch
    obtain ⟨ms, q, uf, ut, nt, unk, pd, nc⟩ := s
    simp only at hpd
    subst hpd
    simp [List.getLastD]
  | cons m mid ih =>
    intro clk s p rest hpd hq hch
    rcases List.chain'_cons.mp hch with ⟨hbp, hch'⟩
    obtain ⟨ms, q, uf, ut, nt, unk, pd, nc⟩ := s
    simp only at hpd hq
    subst hpd
    rw [List.map_cons, List.cons_append]
    have hstep := stepIter_else_byte flat clk ⟨ms, q, uf, ut, nt, unk, [p], nc⟩ p m rfl hq hbp
    simp only [runAux, hstep]
    rw [ih (clk + 1) ⟨ms, q ++ [m], uf, ut, nt, unk, [m], 0⟩ m rest rfl (by simp) hch']
    dsimp only
    have hclk : clk + 1 + (mid.length : Int) = clk + ((m :: mid).length : Int) := by
      simp only [List.length_cons]
      push_cast
      ring
    have hst : (⟨ms, (q ++ [m]) ++ mid, uf, ut, nt, unk, [mid.getLastD m],
          if mid.isEmpty = true then 0 else 0⟩ : SerState) =
        ⟨ms, q ++ m :: mid, uf, ut, nt, unk, [(m :: mid).getLastD p],
          if (m :: mid).isEmpty = true then nc else 0⟩ := by
      rw [List.getLastD_cons]
      simp [List.append_assoc]
    rw [hclk, hst]
    simp

/-- Unfolding one silent loop iteration. -/
lemma runAux_cons_nil_step (flat clk : Int) (s : SerState) (rd : Option Nat)
    (rest : List (Option Nat)) (s' : SerState)
    (h : stepIter flat clk s rd = .next s' [] []) :
    runAux flat clk s (rd :: rest) = runAux flat (clk + 1) s' rest := by
  simp [runAux, h]

/-- Unfolding one emitting loop iteration. -/
lemma runAux_cons_step (flat clk : Int) (s : SerState) (rd : Option Nat)
    (rest : List (Option Nat)) (s' : SerState) (em : List Emis) (l : List Nat)
    (h : stepIter flat clk s rd = .next s' em l) :
    runAux flat clk s (rd :: rest) =
      ⟨(runAux flat (clk + 1) s' rest).stop, (runAux flat (clk + 1) s' rest).state,
        em ++ (runAux flat (clk + 1) s' rest).ems,
        l ++ (runAux flat (clk + 1) s' rest).lost⟩ := by
  simp [runAux, h]

/-- C3 amended behaviour: feeding the sync pattern, then N bytes none of
whose adjacent pairs forms a boundary window, then the sync pattern
again, yields exactly one Binary emission whose payload is the first
sync pattern followed by the N bytes (length N plus 2), no byte is
dropped, and when the run ends the buffer has restarted at the second
sync pattern with the binary flag set. -/
theorem c3_binary_frame_amended (flat : Int) (mid : List Nat)
    (hchain : List.Chain' (fun a b => isBoundaryPair a b = false) mid) :
    (read_serial flat (([0xB5, 0x62] ++ mid ++ [0xB5, 0x62]).map some)).stop = .finished ∧
    (read_serial flat (([0xB5, 0x62] ++ mid ++ [0xB5, 0x62]).map some)).ems =
      [([0xB5, 0x62] ++ mid, 1, .UBX)] ∧
    (read_serial flat (([0xB5, 0x62] ++ mid ++ [0xB5, 0x62]).map some)).lost = [] ∧
    (read_serial flat (([0xB5, 0x62] ++ mid ++ [0xB5, 0x62]).map some)).state.queue =
      [0xB5, 0x62] ∧
    (read_serial flat (([0xB5, 0x62] ++ mid ++ [0xB5, 0x62]).map some)).state.ubx_flag =
      true := by
  have hch62 : List.Chain' (fun a b => isBoundaryPair a b = false) (0x62 :: mid) := by
    cases mid with
    | nil => simp
    | cons m0 mid' => exact List.Chain'.cons (by simp [isBoundaryPair]) hchain
  have hmap : (([0xB5, 0x62] ++ mid ++ [0xB5, 0x62]).map some) =
      some 0xB5 :: some 0x62 :: (mid.map some ++ [some 0xB5, some 0x62]) := by
    simp
  have e1 : stepIter flat flat initState (some 0xB5) =
      .next ⟨[], [0xB5], false, none, none, none, [0xB5], 0⟩ [] [] := by
    simp [stepIter, initState]
  have e2 : stepIter flat (flat + 1) ⟨[], [0xB5], false, none, none, none, [0xB5], 0⟩
      (some 0x62) =
      .next ⟨[], [0xB5, 0x62], true, some (flat + 1), none, none, [0x62], 0⟩ [] [] := by
    simp [stepIter]
  have e4 : stepIter flat (flat + 1 + 1 + (mid.length : Int))
      ⟨[], [0xB5, 0x62] ++ mid, true, some (flat + 1), none, none, [mid.getLastD 0x62],
        if mid.isEmpty = true then 0 else 0⟩ (some 0xB5) =
      .next ⟨[], ([0xB5, 0x62] ++ mid) ++ [0xB5], true, some (flat + 1), none, none,
        [0xB5], 0⟩ [] [] :=
    stepIter_else_byte _ _ _ _ _ rfl (by simp) (by simp [isBoundaryPair])
  have e5 : stepIter flat (flat + 1 + 1 + (mid.length : Int) + 1)
      ⟨[], ([0xB5, 0x62] ++ mid) ++ [0xB5], true, some (flat + 1), none, none, [0xB5], 0⟩
      (some 0x62) =
      .next ⟨save_message [] ((([0xB5, 0x62] ++ mid) ++ [0xB5]).dropLast)
            (flat + 1 - flat) .UBX,
          [0xB5, 0x62], true, some (flat + 1 + 1 + (mid.length : Int) + 1), none, none,
          [0x62], 0⟩
        [((([0xB5, 0x62] ++ mid) ++ [0xB5]).dropLast, flat + 1 - flat, .UBX)] [] :=
    stepIter_sync_close _ _ _ _ rfl (by simp) rfl rfl
  have hrun : read_serial flat (([0xB5, 0x62] ++ mid ++ [0xB5, 0x62]).map some) =
      ⟨.finished,
        ⟨save_message [] ((([0xB5, 0x62] ++ mid) ++ [0xB5]).dropLast) (flat + 1 - flat) .UBX,
          [0xB5, 0x62], true, some (flat + 1 + 1 + (mid.length : Int) + 1), none, none,
          [0x62], 0⟩,
        [((([0xB5, 0x62] ++ mid) ++ [0xB5]).dropLast, flat + 1 - flat, .UBX)], []⟩ := by
    rw [read_serial, hmap]
    rw [runAux_cons_nil_step _ _ _ _ _ _ e1]
    rw [runAux_cons_nil_step _ _ _ _ _ _ e2]
    rw [runAux_else_chain flat mid (flat + 1 + 1) _ 0x62 _ rfl (by simp) hch62]
    rw [runAux_cons_nil_step _ _ _ _ _ _ e4]
    rw [runAux_cons_step _ _ _ _ _ _ _ _ e5]
    rfl
  rw [hrun]
  refine ⟨rfl, ?_, rfl, rfl, rfl⟩
  rw [List.dropLast_concat, add_sub_cancel_left]

/-- C3 amended witness: two middle bytes 01 02 between the two sync
patterns give one Binary emission of payload length 4. -/
theorem c3_binary_frame_amended_witness :
    (read_serial 0 (([0xB5, 0x62] ++ [0x01, 0x02] ++ [0xB5, 0x62]).map some)).stop =
      .finished ∧
    (read_serial 0 (([0xB5, 0x62] ++ [0x01, 0x02] ++ [0xB5, 0x62]).map some)).ems =
      [([0xB5, 0x62] ++ [0x01, 0x02], 1, .UBX)] ∧
    (read_serial 0 (([0xB5, 0x62] ++ [0x01, 0x02] ++ [0xB5, 0x62]).map some)).lost = [] ∧
    (read_serial 0 (([0xB5, 0x62] ++ [0x01, 0x02] ++ [0xB5, 0x62]).map some)).state.queue =
      [0xB5, 0x62] ∧
    (read_serial 0 (([0xB5, 0x62] ++ [0x01, 0x02] ++ [0xB5, 0x62]).map some)).state.ubx_flag =
      true :=
  c3_binary_frame_amended 0 [0x01, 0x02] (List.Chain'.cons (by decide) (List.chain'_singleton _))

/-- C4 amended witness: a cancelled two-byte run writes exactly the
replay of its (empty) emission list. -/
theorem c4_written_equals_emissions_witness :
    read_serial_written 0 [some 0x41, some 0x42] =
      flushEms [] (read_serial 0 [some 0x41, some 0x42]).ems :=
  c4_written_equals_emissions 0 [some 0x41, some 0x42]

/-- C10 witness: concrete instances of the timeout, unreachability and
write-condition statements. -/
theorem c10_can_timeout_raises_witness :
    runCanAux [1] (fun _ _ => (0 : Nat)) [] [none] = ⟨.raised, []⟩ ∧
    (runCanAux [1] (fun _ _ => (0 : Nat)) [] [some ⟨1, [2], 3⟩]).stop ≠ .expired ∧
    (read_CAN_bus_written [1] (fun _ _ => (0 : Nat)) [] = none ↔
      (runCanAux [1] (fun _ _ => (0 : Nat)) [] []).messages = []) :=
  ⟨(c10_can_timeout_raises [1] (fun _ _ => (0 : Nat))).1 [] [],
   (c10_can_timeout_raises [1] (fun _ _ => (0 : Nat))).2.1 [] [some ⟨1, [2], 3⟩],
   (c10_can_timeout_raises [1] (fun _ _ => (0 : Nat))).2.2 []⟩
